import Mathlib

/-!
Shallow embedding of the `join-waitlist` Supabase edge function
(`supabase/functions/join-waitlist/index.ts`) together with the database
constraints declared in `supabase/migrations/20240101000000_initial_schema.sql`.

The handler is modelled as a pure function from an environment (the values the
runtime supplies non-deterministically: the freshly generated row id, the
current timestamp, and whether the database reports an infrastructure failure
on the application lookup or on the insert), a request, and a database state to
a response and a new database state.  Machine strings are Lean `String`s;
JavaScript `toLowerCase().trim()` is modelled character-by-character on the
underlying character list.
-/

namespace Marvin

/-! ### JavaScript string primitives used by the handler -/

/-- ASCII lower-casing of a single character, as performed by JavaScript
`String.prototype.toLowerCase` on the basic latin range. -/
def lowerChar (c : Char) : Char :=
  if 'A' ≤ c ∧ c ≤ 'Z' then Char.ofNat (c.toNat + 32) else c

/-- Whitespace as stripped by JavaScript `String.prototype.trim`
(restricted to the ASCII whitespace characters). -/
def isWs (c : Char) : Bool :=
  c = ' ' || c = '\t' || c = '\r' || c = '\n'

/-- Strip leading and trailing whitespace from a character list. -/
def trimList (l : List Char) : List Char :=
  List.rdropWhile isWs (l.dropWhile isWs)

/-- JavaScript toLowerCase, mapped over the characters. -/
def jsToLowerCase (s : String) : String :=
  ⟨s.data.map lowerChar⟩

/-- JavaScript trim: strip leading and trailing whitespace of a string. -/
def jsTrim (s : String) : String :=
  ⟨trimList s.data⟩

/-- The normalization applied before storage: lower-case, then trim. -/
def normEmail (s : String) : String :=
  jsTrim (jsToLowerCase s)

/-! ### The email check constraint of the migration

`CHECK (email ~* '^[A-Za-z0-9._%+-]+@[A-Za-z0-9.-]+\.[A-Za-z]{2,}$')` -/

/-- Characters allowed in the local part of the email pattern. -/
def localChar (c : Char) : Bool :=
  c.isAlpha || c.isDigit || c = '.' || c = '_' || c = '%' || c = '+' || c = '-'

/-- Characters allowed in the domain part (before the final dot). -/
def domainChar (c : Char) : Bool :=
  c.isAlpha || c.isDigit || c = '.' || c = '-'

/-- Whether the string matches the migration's email regular expression.
The pattern forces exactly one `@`; the trailing `[A-Za-z]{2,}` segment cannot
contain a dot, so the split of the domain is necessarily at its last dot. -/
def emailFormatOk (s : String) : Bool :=
  let cs := s.data
  let localPart := cs.takeWhile (fun c => !(c == '@'))
  match cs.dropWhile (fun c => !(c == '@')) with
  | [] => false
  | _ :: domain =>
    !(domain.contains '@') &&
    !localPart.isEmpty && localPart.all localChar &&
    (let revd := domain.reverse
     let tld := (revd.takeWhile (fun c => !(c == '.'))).reverse
     match revd.dropWhile (fun c => !(c == '.')) with
     | [] => false
     | _ :: preRev =>
       !preRev.isEmpty && preRev.reverse.all domainChar &&
       decide (2 ≤ tld.length) && tld.all Char.isAlpha)

/-! ### Data model (migration `20240101000000_initial_schema.sql`) -/

/-- A row of the `applications` table. -/
structure Application where
  application_id : String
  application_name : String
  deriving Repr, DecidableEq

/-- A row of the `waitlist_entries` table. -/
structure WaitlistEntry where
  id : String
  application_id : String
  email : String
  source_url : String
  country : Option String
  created_at : String
  deriving Repr, DecidableEq

/-- The database state visible to the handler. -/
structure DbState where
  applications : List Application
  waitlist_entries : List WaitlistEntry
  deriving Repr, DecidableEq

/-! ### Requests, responses, environment -/

/-- The fields destructured from the request JSON.  A field absent from the
body is `none`; JavaScript treats both `undefined` and the empty string as
falsy in the `!applicationId || !email || !sourceUrl` validation. -/
structure ParsedBody where
  applicationId : Option String
  email : Option String
  sourceUrl : Option String
  country : Option String
  deriving Repr, DecidableEq

/-- The outcome of `await req.json()`: a parse failure rejects the promise
(and is caught by the surrounding `try`), otherwise the body is available. -/
inductive BodyResult where
  | malformed
  | parsed (b : ParsedBody)
  deriving Repr, DecidableEq

/-- An inbound HTTP request, reduced to the parts the handler inspects. -/
structure RequestModel where
  method : String
  body : BodyResult
  deriving Repr, DecidableEq

/-- A response body: either the plain ok text of the pre-flight branch or a
JSON object `{success, id?, message}`. -/
inductive RespBody where
  | plain (s : String)
  | json (success : Bool) (id : Option String) (message : String)
  deriving Repr, DecidableEq

/-- An HTTP response, reduced to status code and body. -/
structure ResponseModel where
  status : Nat
  body : RespBody
  deriving Repr, DecidableEq

/-- Values supplied by the runtime and the database during one request:
the id `gen_random_uuid()` would mint for the new row, the timestamp
`new Date().toISOString()`, and injected infrastructure failures — an error
returned by the application-lookup `.single()` call beyond mere absence of the
row, and an error code returned by the insert instead of performing it. -/
structure Env where
  newId : String
  now : String
  appLookupDbError : Bool
  insertDbError : Option String
  deriving Repr, DecidableEq

/-- JavaScript falsiness of a destructured string field:
`undefined` and `""` are falsy. -/
def falsy : Option String → Bool
  | none => true
  | some s => s == ""

/-- The application-existence lookup: the single row of `applications`
whose primary key equals the given id, when present. -/
def findApp (db : DbState) (appId : String) : Option Application :=
  db.applications.find? (fun a => a.application_id == appId)

/-- Whether inserting `(appId, email)` violates `UNIQUE(application_id, email)`. -/
def isDuplicate (db : DbState) (appId email : String) : Bool :=
  db.waitlist_entries.any (fun e => e.application_id == appId && e.email == email)

/-- The row built by the insert statement of the handler. -/
def mkEntry (env : Env) (applicationId email sourceUrl : String)
    (country : Option String) : WaitlistEntry :=
  { id := env.newId
    application_id := applicationId
    email := normEmail email
    source_url := sourceUrl
    country := if falsy country then none else country
    created_at := env.now }

/-- The database's reaction to the insert: either an error code —
an injected infrastructure failure, `23514` for the email check constraint,
`23505` for the uniqueness constraint, `23503` for the foreign key — or the
new state with the row appended. -/
def attemptInsert (env : Env) (db : DbState) (e : WaitlistEntry) :
    Except String DbState :=
  match env.insertDbError with
  | some code => .error code
  | none =>
    if !(emailFormatOk e.email) then .error "23514"
    else if isDuplicate db e.application_id e.email then .error "23505"
    else if !(db.applications.any (fun a => a.application_id == e.application_id)) then
      .error "23503"
    else .ok { db with waitlist_entries := db.waitlist_entries ++ [e] }

/-- Helper for the JSON responses of the handler. -/
def jsonResp (status : Nat) (success : Bool) (id : Option String)
    (message : String) : ResponseModel :=
  { status := status, body := .json success id message }

/-- The body of the `try` block: `.error` is a raised exception that the
`catch` converts into the 500 response.  A raised exception performs no
database write, so only the response/state pair of the `.ok` case carries a
possibly updated state. -/
def tryBlock (env : Env) (req : RequestModel) (db : DbState) :
    Except String (ResponseModel × DbState) :=
  match req.body with
  | .malformed => .error "SyntaxError: unexpected token in JSON"
  | .parsed b =>
    if falsy b.applicationId || falsy b.email || falsy b.sourceUrl then
      .ok (jsonResp 400 false none "Missing required fields", db)
    else
      if env.appLookupDbError || (findApp db (b.applicationId.getD "")).isNone then
        .ok (jsonResp 400 false none "Invalid application ID", db)
      else
        match attemptInsert env db
          (mkEntry env (b.applicationId.getD "") (b.email.getD "")
            (b.sourceUrl.getD "") b.country) with
        | .error code =>
          if code == "23505" then
            .ok (jsonResp 409 false none "Email already registered", db)
          else .error code
        | .ok db' =>
          .ok (jsonResp 201 true (some env.newId) "Successfully joined waitlist", db')

/-- The full request handler passed to `serve`. -/
def handler (env : Env) (req : RequestModel) (db : DbState) :
    ResponseModel × DbState :=
  if req.method == "OPTIONS" then
    ({ status := 200, body := .plain "ok" }, db)
  else if !(req.method == "POST") then
    (jsonResp 405 false none "Method not allowed", db)
  else
    match tryBlock env req db with
    | .ok r => r
    | .error _ => (jsonResp 500 false none "Internal server error", db)

/-- Looking a waitlist row up by its primary key. -/
def lookupEntry (db : DbState) (id : String) : Option WaitlistEntry :=
  db.waitlist_entries.find? (fun e => e.id == id)

/-- The responses produced by replaying the same request once per
environment in `envs`, threading the database state through. -/
def responsesOf (req : RequestModel) : List Env → DbState → List ResponseModel
  | [], _ => []
  | env :: rest, db =>
    (handler env req db).1 :: responsesOf req rest (handler env req db).2

/-! ### Reachable database states

`waitlist_entries` rows are created only by the handler; `applications` rows
are created out-of-band, and deleting one cascades
(`ON DELETE CASCADE`) to its entries. -/

/-- Database states reachable from an entry-less initial state by handler
calls and out-of-band application management. -/
inductive Reachable : DbState → Prop
  | init (apps : List Application) : Reachable ⟨apps, []⟩
  | handlerStep (env : Env) (req : RequestModel) (db : DbState) :
      Reachable db → Reachable (handler env req db).2
  | createApp (a : Application) (db : DbState) :
      Reachable db → Reachable ⟨db.applications ++ [a], db.waitlist_entries⟩
  | deleteApp (appId : String) (db : DbState) :
      Reachable db →
      Reachable ⟨db.applications.filter (fun a => !(a.application_id == appId)),
                 db.waitlist_entries.filter (fun e => !(e.application_id == appId))⟩

/-- Two waitlist rows do not collide on `(application_id, normalized email)`. -/
def normPairDistinct (a b : WaitlistEntry) : Prop :=
  ¬(a.application_id = b.application_id ∧ normEmail a.email = normEmail b.email)

/-- The uniqueness invariant together with the normalization of stored
emails that the handler maintains. -/
def EntriesInv (db : DbState) : Prop :=
  db.waitlist_entries.Pairwise normPairDistinct ∧
  ∀ e ∈ db.waitlist_entries, normEmail e.email = e.email

/-! ### Sanity checks on concrete inputs -/

example : normEmail "  User@Example.com " = "user@example.com" := by decide

example : emailFormatOk "user@example.com" = true := by decide

example : emailFormatOk "user@examplecom" = false := by decide

example : emailFormatOk "user@@example.com" = false := by decide

example : emailFormatOk "@example.com" = false := by decide

example : emailFormatOk "a@b.c" = false := by decide

example : falsy (some "") = true := by decide

/-! ### Normalization lemmas: `normEmail` is idempotent -/

theorem charEq_iff_toNat {a b : Char} : a = b ↔ a.toNat = b.toNat := by
  constructor
  · intro h; rw [h]
  · intro h; exact Char.ext (UInt32.toNat.inj h)

theorem toNat_le_of_le {a b : Char} (h : a ≤ b) : a.toNat ≤ b.toNat := by
  simpa [Char.le_def, UInt32.le_def] using h

theorem toNat_lowerChar_upper (c : Char) (h : 'A' ≤ c ∧ c ≤ 'Z') :
    (lowerChar c).toNat = c.toNat + 32 := by
  unfold lowerChar
  rw [if_pos h]
  have hlt : c.toNat + 32 < 0xd800 := by
    have h2 : c.toNat ≤ 90 := by
      have h3 := toNat_le_of_le h.2
      rwa [show ('Z').toNat = 90 from rfl] at h3
    omega
  unfold Char.ofNat
  rw [dif_pos (Or.inl hlt)]
  rfl

theorem isWs_eq_false (c : Char) (h : 32 < c.toNat) : isWs c = false := by
  unfold isWs
  have h1 : ¬(c = ' ') := fun he => by
    have h5 := charEq_iff_toNat.mp he
    rw [show (' ').toNat = 32 from rfl] at h5; omega
  have h2 : ¬(c = '\t') := fun he => by
    have h5 := charEq_iff_toNat.mp he
    rw [show ('\t').toNat = 9 from rfl] at h5; omega
  have h3 : ¬(c = '\r') := fun he => by
    have h5 := charEq_iff_toNat.mp he
    rw [show ('\r').toNat = 13 from rfl] at h5; omega
  have h4 : ¬(c = '\n') := fun he => by
    have h5 := charEq_iff_toNat.mp he
    rw [show ('\n').toNat = 10 from rfl] at h5; omega
  simp [h1, h2, h3, h4]

theorem upper_range (c : Char) (h : 'A' ≤ c ∧ c ≤ 'Z') :
    65 ≤ c.toNat ∧ c.toNat ≤ 90 := by
  have h1 := toNat_le_of_le h.1
  have h2 := toNat_le_of_le h.2
  rw [show ('A').toNat = 65 from rfl] at h1
  rw [show ('Z').toNat = 90 from rfl] at h2
  exact ⟨h1, h2⟩

theorem not_upper_of_toNat_gt {c : Char} (h : 90 < c.toNat) :
    ¬('A' ≤ c ∧ c ≤ 'Z') := fun hc => by
  have h2 := (upper_range c hc).2
  omega

theorem lowerChar_eq_self {c : Char} (h : ¬('A' ≤ c ∧ c ≤ 'Z')) :
    lowerChar c = c := by
  unfold lowerChar; rw [if_neg h]

theorem lowerChar_lowerChar (c : Char) : lowerChar (lowerChar c) = lowerChar c := by
  by_cases h : 'A' ≤ c ∧ c ≤ 'Z'
  · have h1 := toNat_lowerChar_upper c h
    have h2 := upper_range c h
    exact lowerChar_eq_self (not_upper_of_toNat_gt (by omega))
  · rw [lowerChar_eq_self h, lowerChar_eq_self h]

theorem isWs_lowerChar (c : Char) : isWs (lowerChar c) = isWs c := by
  by_cases h : 'A' ≤ c ∧ c ≤ 'Z'
  · have h1 := toNat_lowerChar_upper c h
    have h2 := upper_range c h
    rw [isWs_eq_false (lowerChar c) (by omega), isWs_eq_false c (by omega)]
  · rw [lowerChar_eq_self h]

theorem map_lowerChar_idem (l : List Char) :
    (l.map lowerChar).map lowerChar = l.map lowerChar := by
  rw [List.map_map]
  have h : lowerChar ∘ lowerChar = lowerChar := funext lowerChar_lowerChar
  rw [h]

theorem isWs_comp_lowerChar : isWs ∘ lowerChar = isWs := funext isWs_lowerChar

theorem dropWhile_map_lowerChar (l : List Char) :
    (l.map lowerChar).dropWhile isWs = (l.dropWhile isWs).map lowerChar := by
  rw [List.dropWhile_map, isWs_comp_lowerChar]

theorem rdropWhile_map_lowerChar (l : List Char) :
    List.rdropWhile isWs (l.map lowerChar) = (List.rdropWhile isWs l).map lowerChar := by
  unfold List.rdropWhile
  rw [← List.map_reverse, dropWhile_map_lowerChar, List.map_reverse]

theorem trimList_map_lowerChar (l : List Char) :
    trimList (l.map lowerChar) = (trimList l).map lowerChar := by
  unfold trimList
  rw [dropWhile_map_lowerChar, rdropWhile_map_lowerChar]

theorem dropWhile_rdropWhile_fix (l : List Char)
    (hfix : l.dropWhile isWs = l) :
    (List.rdropWhile isWs l).dropWhile isWs = List.rdropWhile isWs l := by
  cases hm : List.rdropWhile isWs l with
  | nil => simp
  | cons a t =>
    have hpre : List.rdropWhile isWs l <+: l := List.rdropWhile_prefix isWs l
    obtain ⟨u, hu⟩ := hpre
    rw [hm] at hu
    have h2 : l = a :: (t ++ u) := by rw [← hu]; rfl
    have hws : isWs a = false := by
      by_cases hw : isWs a
      · exfalso
        have h4 : List.dropWhile isWs l = List.dropWhile isWs (t ++ u) := by
          rw [h2, List.dropWhile_cons, hw]
          simp
        have h5 := congrArg List.length (hfix.symm.trans h4)
        have h6 : (List.dropWhile isWs (t ++ u)).length ≤ (t ++ u).length :=
          (List.dropWhile_suffix (l := t ++ u) isWs).length_le
        rw [h2] at h5
        simp only [List.length_cons, List.length_append] at h5 h6
        omega
      · simpa using hw
    rw [List.dropWhile_cons, hws]
    simp

theorem trimList_idem (l : List Char) : trimList (trimList l) = trimList l := by
  unfold trimList
  rw [dropWhile_rdropWhile_fix _ (List.dropWhile_idempotent _ _)]
  exact List.rdropWhile_idempotent _ _

theorem normEmail_idem (s : String) : normEmail (normEmail s) = normEmail s := by
  show String.mk (trimList (((trimList (s.data.map lowerChar))).map lowerChar)) =
    String.mk (trimList (s.data.map lowerChar))
  apply congrArg String.mk
  calc trimList ((trimList (s.data.map lowerChar)).map lowerChar)
      = trimList (trimList ((s.data.map lowerChar).map lowerChar)) :=
        congrArg trimList (trimList_map_lowerChar (s.data.map lowerChar)).symm
    _ = trimList (trimList (s.data.map lowerChar)) :=
        congrArg trimList (congrArg trimList (map_lowerChar_idem s.data))
    _ = trimList (s.data.map lowerChar) := trimList_idem _

/-! ### Claims -/

/-- C5: for every POST request whose parsed body is missing (or has a falsy
value for) any of `applicationId`, `email`, or `sourceUrl` — including an
empty-string email — the handler returns status 400 with body
`{success:false, message:"Missing required fields"}`, regardless of which
field(s) are missing. -/
theorem C5_missing_fields (env : Env) (req : RequestModel) (db : DbState)
    (b : ParsedBody)
    (hm : req.method = "POST")
    (hb : req.body = .parsed b)
    (hmiss : falsy b.applicationId = true ∨ falsy b.email = true ∨
      falsy b.sourceUrl = true) :
    handler env req db = (jsonResp 400 false none "Missing required fields", db) := by
  rcases hmiss with h | h | h <;> simp [handler, tryBlock, hm, hb, h]

/-- Witness for C5: a POST with an empty-string email is rejected with 400. -/
theorem C5_missing_fields_witness :
    handler ⟨"uuid-1", "2024-01-01T00:00:00Z", false, none⟩
      ⟨"POST", .parsed ⟨some "app-1", some "", some "https://x.com", none⟩⟩
      ⟨[], []⟩ =
      (jsonResp 400 false none "Missing required fields", ⟨[], []⟩) :=
  C5_missing_fields _ _ _ _ rfl rfl (Or.inr (Or.inl (by decide)))

/-- C6: for every POST request with all required fields present but an
`applicationId` that does not reference an existing row of `applications`,
the handler returns status 400 with body
`{success:false, message:"Invalid application ID"}`. -/
theorem C6_unknown_application (env : Env) (req : RequestModel) (db : DbState)
    (b : ParsedBody) (applicationId : String)
    (hm : req.method = "POST")
    (hb : req.body = .parsed b)
    (ha : b.applicationId = some applicationId)
    (hna : ¬(applicationId = ""))
    (he : falsy b.email = false)
    (hs : falsy b.sourceUrl = false)
    (hfind : findApp db applicationId = none) :
    handler env req db = (jsonResp 400 false none "Invalid application ID", db) := by
  simp only [handler, tryBlock, hm, hb, he, hs, ha, hfind]
  simp [falsy, hna, hfind]

/-- Witness for C6: a well-formed but unknown application id is rejected
with 400 even though all fields are present. -/
theorem C6_unknown_application_witness :
    handler ⟨"uuid-1", "2024-01-01T00:00:00Z", false, none⟩
      ⟨"POST", .parsed ⟨some "48bc5a4b-0000-0000-0000-000000000000",
        some "a@example.com", some "https://x.com", some "US"⟩⟩
      ⟨[⟨"other-app", "Other"⟩], []⟩ =
      (jsonResp 400 false none "Invalid application ID", ⟨[⟨"other-app", "Other"⟩], []⟩) :=
  C6_unknown_application _ _ _ _ _ rfl rfl rfl (by decide) (by decide) (by decide)
    (by decide)

/-- C9 (implicit): a POST whose body is not valid JSON lands in the catch-all
and yields 500 `{success:false, message:"Internal server error"}`, not the
400 "Missing required fields" of the field validation. -/
theorem C9_malformed_body (env : Env) (req : RequestModel) (db : DbState)
    (hm : req.method = "POST")
    (hb : req.body = .malformed) :
    handler env req db = (jsonResp 500 false none "Internal server error", db) := by
  simp [handler, tryBlock, hm, hb]

/-- Witness for C9: a malformed-body POST on an empty database returns 500. -/
theorem C9_malformed_body_witness :
    handler ⟨"uuid-1", "2024-01-01T00:00:00Z", false, none⟩
      ⟨"POST", .malformed⟩ ⟨[], []⟩ =
      (jsonResp 500 false none "Internal server error", ⟨[], []⟩) :=
  C9_malformed_body _ _ _ rfl rfl

/-- C10 (implicit): any error reported by the application-existence lookup —
in particular a database failure unrelated to whether the id exists —
produces 400 `{success:false, message:"Invalid application ID"}`, never 500,
whatever the content of the `applications` table. -/
theorem C10_lookup_error (env : Env) (req : RequestModel) (db : DbState)
    (b : ParsedBody)
    (hm : req.method = "POST")
    (hb : req.body = .parsed b)
    (ha : falsy b.applicationId = false)
    (he : falsy b.email = false)
    (hs : falsy b.sourceUrl = false)
    (herr : env.appLookupDbError = true) :
    handler env req db = (jsonResp 400 false none "Invalid application ID", db) := by
  simp [handler, tryBlock, hm, hb, ha, he, hs, herr]

/-- Witness for C10: a lookup outage is reported as 400 even though the
referenced application row exists. -/
theorem C10_lookup_error_witness :
    handler ⟨"uuid-1", "2024-01-01T00:00:00Z", true, none⟩
      ⟨"POST", .parsed ⟨some "app-1", some "a@example.com",
        some "https://x.com", none⟩⟩
      ⟨[⟨"app-1", "My App"⟩], []⟩ =
      (jsonResp 400 false none "Invalid application ID", ⟨[⟨"app-1", "My App"⟩], []⟩) :=
  C10_lookup_error _ _ _ _ rfl rfl (by decide) (by decide) (by decide) rfl

/-- C8: whenever the `try` block raises an exception (for any request that
enters it, i.e. any POST), the handler answers 500 with the fixed body
`{success:false, message:"Internal server error"}`; the body is a constant,
so the underlying error `e` never appears in the response. -/
theorem C8_catch_all (env : Env) (req : RequestModel) (db : DbState) (e : String)
    (hm : req.method = "POST")
    (hthrow : tryBlock env req db = .error e) :
    handler env req db = (jsonResp 500 false none "Internal server error", db) := by
  simp [handler, hm, hthrow]

/-- Witness for C8: the exception raised by JSON parsing is mapped to the
fixed 500 response. -/
theorem C8_catch_all_witness :
    handler ⟨"uuid-1", "2024-01-01T00:00:00Z", false, none⟩
      ⟨"POST", .malformed⟩ ⟨[], []⟩ =
      (jsonResp 500 false none "Internal server error", ⟨[], []⟩) :=
  C8_catch_all _ _ _ "SyntaxError: unexpected token in JSON" rfl rfl

/-- C4: if the request reaches the insert step and the insert fails with the
uniqueness-violation signal (error code 23505), the handler returns status
409 with body `{success:false, message:"Email already registered"}`. -/
theorem C4_unique_violation (env : Env) (req : RequestModel) (db : DbState)
    (b : ParsedBody) (applicationId email sourceUrl : String)
    (hm : req.method = "POST")
    (hb : req.body = .parsed b)
    (ha : b.applicationId = some applicationId)
    (he : b.email = some email)
    (hs : b.sourceUrl = some sourceUrl)
    (hna : ¬(applicationId = ""))
    (hne : ¬(email = ""))
    (hns : ¬(sourceUrl = ""))
    (hlook : env.appLookupDbError = false)
    (hfound : (findApp db applicationId).isSome = true)
    (hins : attemptInsert env db (mkEntry env applicationId email sourceUrl b.country)
      = .error "23505") :
    handler env req db = (jsonResp 409 false none "Email already registered", db) := by
  simp [handler, tryBlock, hm, hb, ha, he, hs, hna, hne, hns, falsy, hlook,
    Option.isNone_iff_eq_none] at hins ⊢
  rw [Option.isSome_iff_exists] at hfound
  obtain ⟨app, happ⟩ := hfound
  simp [happ, hins]

/-- Witness for C4: inserting the email already present for the application
yields 409. -/
theorem C4_unique_violation_witness :
    handler ⟨"uuid-2", "2024-01-02T00:00:00Z", false, none⟩
      ⟨"POST", .parsed ⟨some "app-1", some "a@example.com",
        some "https://x.com", none⟩⟩
      ⟨[⟨"app-1", "My App"⟩],
       [⟨"uuid-1", "app-1", "a@example.com", "https://x.com", none,
         "2024-01-01T00:00:00Z"⟩]⟩ =
      (jsonResp 409 false none "Email already registered",
       ⟨[⟨"app-1", "My App"⟩],
        [⟨"uuid-1", "app-1", "a@example.com", "https://x.com", none,
          "2024-01-01T00:00:00Z"⟩]⟩) :=
  C4_unique_violation _ _ _ _ _ _ _ rfl rfl rfl rfl rfl (by decide) (by decide)
    (by decide) rfl (by decide) rfl

/-- C1: for every request with a valid `(applicationId, email, sourceUrl)`
where the application exists and the email is not yet registered for it,
the handler returns 201 with body
`{success:true, id:<fresh id>, message:"Successfully joined waitlist"}`, and
looking the fresh identifier up in the resulting state returns a row whose
email is the submitted email lower-cased and trimmed. -/
theorem C1_successful_signup (env : Env) (req : RequestModel) (db : DbState)
    (b : ParsedBody) (applicationId email sourceUrl : String)
    (hm : req.method = "POST")
    (hb : req.body = .parsed b)
    (ha : b.applicationId = some applicationId)
    (he : b.email = some email)
    (hs : b.sourceUrl = some sourceUrl)
    (hna : ¬(applicationId = ""))
    (hne : ¬(email = ""))
    (hns : ¬(sourceUrl = ""))
    (hlook : env.appLookupDbError = false)
    (hinsEnv : env.insertDbError = none)
    (hfound : (findApp db applicationId).isSome = true)
    (hfmt : emailFormatOk (normEmail email) = true)
    (hnotreg : ∀ e ∈ db.waitlist_entries,
      ¬(e.application_id = applicationId ∧ e.email = normEmail email))
    (hfresh : ∀ e ∈ db.waitlist_entries, ¬(e.id = env.newId)) :
    (handler env req db).1 =
      jsonResp 201 true (some env.newId) "Successfully joined waitlist" ∧
    ∃ e, lookupEntry (handler env req db).2 env.newId = some e ∧
      e.email = normEmail email := by
  rw [Option.isSome_iff_exists] at hfound
  obtain ⟨app, happ⟩ := hfound
  have hdup : isDuplicate db applicationId (normEmail email) = false := by
    simp only [isDuplicate, List.any_eq_false]
    intro e hmem
    simpa using hnotreg e hmem
  have happ2 : db.applications.find? (fun a => a.application_id == applicationId)
      = some app := happ
  have hfk : db.applications.any (fun a => a.application_id == applicationId) = true := by
    have hp := List.find?_some happ2
    have hmem := List.mem_of_find?_eq_some happ2
    exact List.any_eq_true.mpr ⟨app, hmem, hp⟩
  have hins : attemptInsert env db (mkEntry env applicationId email sourceUrl b.country)
      = .ok { db with waitlist_entries :=
          db.waitlist_entries ++ [mkEntry env applicationId email sourceUrl b.country] } := by
    simp [attemptInsert, hinsEnv, mkEntry, hfmt, hdup, hfk]
  have hrun : handler env req db =
      (jsonResp 201 true (some env.newId) "Successfully joined waitlist",
       { db with waitlist_entries :=
          db.waitlist_entries ++ [mkEntry env applicationId email sourceUrl b.country] }) := by
    simp only [handler, tryBlock, hm, hb, ha, he, hs]
    simp [falsy, hna, hne, hns, hlook, happ, hins]
  refine ⟨by rw [hrun], ⟨mkEntry env applicationId email sourceUrl b.country, ?_, rfl⟩⟩
  rw [hrun]
  simp only [lookupEntry, List.find?_append]
  have h1 : db.waitlist_entries.find? (fun e => e.id == env.newId) = none :=
    List.find?_eq_none.mpr (fun x hx => by simpa using hfresh x hx)
  simp [h1, mkEntry]

/-- Witness for C1: a fresh signup on a one-application database returns
201 and the stored row carries the normalized email. -/
theorem C1_successful_signup_witness :
    (handler ⟨"uuid-1", "2024-01-01T00:00:00Z", false, none⟩
      ⟨"POST", .parsed ⟨some "app-1", some "  User@Example.com ",
        some "https://x.com", some "US"⟩⟩
      ⟨[⟨"app-1", "My App"⟩], []⟩).1 =
      jsonResp 201 true (some "uuid-1") "Successfully joined waitlist" ∧
    ∃ e, lookupEntry (handler ⟨"uuid-1", "2024-01-01T00:00:00Z", false, none⟩
      ⟨"POST", .parsed ⟨some "app-1", some "  User@Example.com ",
        some "https://x.com", some "US"⟩⟩
      ⟨[⟨"app-1", "My App"⟩], []⟩).2 "uuid-1" = some e ∧
      e.email = normEmail "  User@Example.com " :=
  C1_successful_signup _ _ _ _ _ _ _ rfl rfl rfl rfl rfl (by decide) (by decide)
    (by decide) rfl rfl (by decide) (by decide)
    (fun e hmem => absurd hmem (List.not_mem_nil e))
    (fun e hmem => absurd hmem (List.not_mem_nil e))

/-- If the insert succeeds, the new state is the old one with exactly the
attempted row appended. -/
theorem attemptInsert_ok (env : Env) (db : DbState) (e : WaitlistEntry)
    (db' : DbState) (h : attemptInsert env db e = .ok db') :
    db' = { db with waitlist_entries := db.waitlist_entries ++ [e] } := by
  unfold attemptInsert at h
  split at h
  · simp at h
  · split at h
    · simp at h
    · split at h
      · simp at h
      · split at h
        · simp at h
        · simp only [Except.ok.injEq] at h
          exact h.symm

/-- The `try` block either leaves the state untouched (every non-201
outcome) or appends exactly one row (the 201 outcome). -/
theorem tryBlock_state (env : Env) (req : RequestModel) (db : DbState)
    (resp : ResponseModel) (db' : DbState)
    (h : tryBlock env req db = .ok (resp, db')) :
    (resp.status = 201 →
      ∃ e, db' = { db with waitlist_entries := db.waitlist_entries ++ [e] }) ∧
    (¬(resp.status = 201) → db' = db) := by
  unfold tryBlock at h
  split at h
  · simp at h
  · split at h
    · have h2 := Except.ok.inj h
      have hr : resp = jsonResp 400 false none "Missing required fields" :=
        congrArg Prod.fst h2.symm
      have hd : db' = db := congrArg Prod.snd h2.symm
      constructor
      · intro hst; rw [hr] at hst; simp [jsonResp] at hst
      · intro _; exact hd
    · split at h
      · have h2 := Except.ok.inj h
        have hr : resp = jsonResp 400 false none "Invalid application ID" :=
          congrArg Prod.fst h2.symm
        have hd : db' = db := congrArg Prod.snd h2.symm
        constructor
        · intro hst; rw [hr] at hst; simp [jsonResp] at hst
        · intro _; exact hd
      · split at h
        · split at h
          · have h2 := Except.ok.inj h
            have hr : resp = jsonResp 409 false none "Email already registered" :=
              congrArg Prod.fst h2.symm
            have hd : db' = db := congrArg Prod.snd h2.symm
            constructor
            · intro hst; rw [hr] at hst; simp [jsonResp] at hst
            · intro _; exact hd
          · simp at h
        · rename_i db2 hins
          have h2 := Except.ok.inj h
          have hr : resp = jsonResp 201 true (some env.newId) "Successfully joined waitlist" :=
            congrArg Prod.fst h2.symm
          have hd : db' = db2 := congrArg Prod.snd h2.symm
          have hshape := attemptInsert_ok env db _ db2 hins
          constructor
          · intro _
            exact ⟨_, hd.trans hshape⟩
          · intro hst; exfalso; rw [hr] at hst; simp [jsonResp] at hst

/-- C7: side-effect bound — when the response is 201 exactly one waitlist
row has been appended (and `applications` is untouched); on every other
outcome (200 pre-flight, 405, 400, 409, 500) the database state is
unchanged. -/
theorem C7_side_effect_bound (env : Env) (req : RequestModel) (db : DbState) :
    ((handler env req db).1.status = 201 →
      ∃ e, (handler env req db).2 =
        { db with waitlist_entries := db.waitlist_entries ++ [e] }) ∧
    (¬((handler env req db).1.status = 201) → (handler env req db).2 = db) := by
  by_cases h1 : req.method = "OPTIONS"
  · constructor
    · intro hst; exfalso; simp [handler, h1] at hst
    · intro _; simp [handler, h1]
  · by_cases h2 : req.method = "POST"
    · cases htb : tryBlock env req db with
      | error e =>
        constructor
        · intro hst; exfalso; simp [handler, h1, h2, htb, jsonResp] at hst
        · intro _; simp [handler, h1, h2, htb]
      | ok r =>
        obtain ⟨resp, db'⟩ := r
        have hh : handler env req db = (resp, db') := by
          simp [handler, h1, h2, htb]
        rw [hh]
        exact tryBlock_state env req db resp db' htb
    · constructor
      · intro hst; exfalso; simp [handler, h1, h2, jsonResp] at hst
      · intro _; simp [handler, h1, h2]

/-- Witness for C7: on a concrete successful request the first conjunct
yields the appended row; on a concrete rejected request the state is
returned unchanged. -/
theorem C7_side_effect_bound_witness :
    (∃ e, (handler ⟨"uuid-1", "t0", false, none⟩
      ⟨"POST", .parsed ⟨some "app-1", some "a@b.com", some "https://x", none⟩⟩
      ⟨[⟨"app-1", "A"⟩], []⟩).2 =
      { applications := [⟨"app-1", "A"⟩],
        waitlist_entries := ([] : List WaitlistEntry) ++ [e] }) ∧
    (handler ⟨"uuid-1", "t0", false, none⟩ ⟨"GET", .malformed⟩
      ⟨[⟨"app-1", "A"⟩], []⟩).2 = ⟨[⟨"app-1", "A"⟩], []⟩ :=
  ⟨(C7_side_effect_bound ⟨"uuid-1", "t0", false, none⟩
      ⟨"POST", .parsed ⟨some "app-1", some "a@b.com", some "https://x", none⟩⟩
      ⟨[⟨"app-1", "A"⟩], []⟩).1 (by decide),
   (C7_side_effect_bound ⟨"uuid-1", "t0", false, none⟩ ⟨"GET", .malformed⟩
      ⟨[⟨"app-1", "A"⟩], []⟩).2 (by decide)⟩

/-- Full inversion of a successful insert: all guards were false and the
state is the append. -/
theorem attemptInsert_ok_inv (env : Env) (db : DbState) (e : WaitlistEntry)
    (db' : DbState) (h : attemptInsert env db e = .ok db') :
    env.insertDbError = none ∧ emailFormatOk e.email = true ∧
    isDuplicate db e.application_id e.email = false ∧
    db.applications.any (fun a => a.application_id == e.application_id) = true ∧
    db' = { db with waitlist_entries := db.waitlist_entries ++ [e] } := by
  unfold attemptInsert at h
  split at h
  · simp at h
  · rename_i henv
    split at h
    · simp at h
    · rename_i hfmt
      split at h
      · simp at h
      · rename_i hdup
        split at h
        · simp at h
        · rename_i hfk
          simp only [Except.ok.injEq] at h
          refine ⟨henv, by simpa using hfmt, by simpa using hdup, by simpa using hfk,
            h.symm⟩

/-- Inversion of a 201 outcome: the request was a POST with a parsed body,
no field was falsy, the application lookup succeeded, and the insert
succeeded, leaving the appended state. -/
theorem handler_201_inv (env : Env) (req : RequestModel) (db : DbState)
    (h : (handler env req db).1.status = 201) :
    ∃ b, req.method = "POST" ∧ req.body = .parsed b ∧
      falsy b.applicationId = false ∧ falsy b.email = false ∧
      falsy b.sourceUrl = false ∧
      env.appLookupDbError = false ∧
      (findApp db (b.applicationId.getD "")).isSome = true ∧
      attemptInsert env db
        (mkEntry env (b.applicationId.getD "") (b.email.getD "")
          (b.sourceUrl.getD "") b.country) = .ok (handler env req db).2 := by
  by_cases h1 : req.method = "OPTIONS"
  · exfalso; simp [handler, h1] at h
  by_cases h2 : req.method = "POST"
  case neg => exfalso; simp [handler, h1, h2, jsonResp] at h
  cases htb : tryBlock env req db with
  | error e => exfalso; simp [handler, h1, h2, htb, jsonResp] at h
  | ok r =>
    have hh : handler env req db = r := by simp [handler, h1, h2, htb]
    unfold tryBlock at htb
    split at htb
    · simp at htb
    · rename_i b hbody
      split at htb
      · exfalso
        have h3 := Except.ok.inj htb
        rw [hh, ← h3] at h
        simp [jsonResp] at h
      · rename_i hmiss
        split at htb
        · exfalso
          have h3 := Except.ok.inj htb
          rw [hh, ← h3] at h
          simp [jsonResp] at h
        · rename_i hlook
          split at htb
          · split at htb
            · exfalso
              have h3 := Except.ok.inj htb
              rw [hh, ← h3] at h
              simp [jsonResp] at h
            · simp at htb
          · rename_i db2 hins
            have h3 := Except.ok.inj htb
            have hm3 : falsy b.applicationId = false ∧ falsy b.email = false ∧
                falsy b.sourceUrl = false := by simpa [and_assoc] using hmiss
            have hl3 : env.appLookupDbError = false ∧
                ¬(findApp db (b.applicationId.getD "") = none) := by
              simpa using hlook
            have hsome : (findApp db (b.applicationId.getD "")).isSome = true := by
              cases ho : findApp db (b.applicationId.getD "") with
              | none => exact absurd ho hl3.2
              | some app => simp
            refine ⟨b, h2, hbody, hm3.1, hm3.2.1, hm3.2.2, hl3.1, hsome, ?_⟩
            rw [hh, ← h3]
            exact hins

/-- After a 201 success, replaying the same request under a healthy
environment hits the uniqueness constraint and returns the 409 response,
leaving the state unchanged. -/
theorem handler_repeat_409 (env env' : Env) (req : RequestModel) (db : DbState)
    (h201 : (handler env req db).1.status = 201)
    (hlook : env'.appLookupDbError = false)
    (hins : env'.insertDbError = none) :
    handler env' req (handler env req db).2 =
      (jsonResp 409 false none "Email already registered", (handler env req db).2) := by
  obtain ⟨b, hm, hb, hfa, hfe, hfs, hle, hfound, hinsOk⟩ := handler_201_inv env req db h201
  obtain ⟨-, hfmt, -, -, hshape⟩ := attemptInsert_ok_inv env db _ _ hinsOk
  simp only [mkEntry] at hfmt
  set db1 := (handler env req db).2 with hdb1
  have happs : db1.applications = db.applications := by
    rw [hshape]
  have hfind1 : findApp db1 (b.applicationId.getD "")
      = findApp db (b.applicationId.getD "") := by
    unfold findApp; rw [happs]
  have hdup1 : isDuplicate db1 (b.applicationId.getD "")
      (normEmail (b.email.getD "")) = true := by
    rw [hshape]
    simp [isDuplicate, mkEntry]
  have hins1 : attemptInsert env' db1
      (mkEntry env' (b.applicationId.getD "") (b.email.getD "")
        (b.sourceUrl.getD "") b.country) = .error "23505" := by
    simp [attemptInsert, hins, mkEntry, hfmt, hdup1]
  cases ho : findApp db (b.applicationId.getD "") with
  | none => rw [ho] at hfound; simp at hfound
  | some app =>
    have hfind2 : findApp db1 (b.applicationId.getD "")
        = some app := hfind1.trans ho
    simp only [handler, tryBlock, hm, hb]
    simp [hfa, hfe, hfs, hlook, hfind2, hins1]

/-- C2: idempotence of rejection — once a request has produced 201,
replaying the exact same request any number of times (each run under a
healthy environment) yields the 409 duplicate response every time, never a
second 201. -/
theorem C2_idempotence_of_rejection (env : Env) (envs : List Env)
    (req : RequestModel) (db : DbState)
    (h201 : (handler env req db).1.status = 201)
    (hok : ∀ e ∈ envs, e.appLookupDbError = false ∧ e.insertDbError = none) :
    ∀ r ∈ responsesOf req envs (handler env req db).2,
      r = jsonResp 409 false none "Email already registered" := by
  induction envs with
  | nil => intro r hr; simp [responsesOf] at hr
  | cons e rest ih =>
    intro r hr
    have he := hok e (List.mem_cons_self e rest)
    have hstep := handler_repeat_409 env e req db h201 he.1 he.2
    simp only [responsesOf] at hr
    rw [hstep] at hr
    rcases List.mem_cons.mp hr with h4 | h4
    · exact h4
    · exact ih (fun x hx => hok x (List.mem_cons_of_mem _ hx)) r h4

/-- Witness for C2: a concrete signup followed by two replays under fresh
environments; the first replay's response is the 409 duplicate response. -/
theorem C2_idempotence_of_rejection_witness :
    (handler ⟨"uuid-2", "t1", false, none⟩
      ⟨"POST", .parsed ⟨some "app-1", some "a@b.com", some "https://x", none⟩⟩
      (handler ⟨"uuid-1", "t0", false, none⟩
        ⟨"POST", .parsed ⟨some "app-1", some "a@b.com", some "https://x", none⟩⟩
        ⟨[⟨"app-1", "A"⟩], []⟩).2).1 =
      jsonResp 409 false none "Email already registered" :=
  C2_idempotence_of_rejection ⟨"uuid-1", "t0", false, none⟩
    [⟨"uuid-2", "t1", false, none⟩, ⟨"uuid-3", "t2", false, none⟩]
    ⟨"POST", .parsed ⟨some "app-1", some "a@b.com", some "https://x", none⟩⟩
    ⟨[⟨"app-1", "A"⟩], []⟩ (by decide) (by decide) _ (by decide)

/-- The handler either leaves the state untouched or the new state is the
result of a successful insert of a handler-built row. -/
theorem handler_state_cases (env : Env) (req : RequestModel) (db : DbState) :
    (handler env req db).2 = db ∨
    ∃ b : ParsedBody, attemptInsert env db
        (mkEntry env (b.applicationId.getD "") (b.email.getD "")
          (b.sourceUrl.getD "") b.country) = .ok (handler env req db).2 := by
  by_cases h1 : req.method = "OPTIONS"
  · left; simp [handler, h1]
  by_cases h2 : req.method = "POST"
  case neg => left; simp [handler, h1, h2]
  cases htb : tryBlock env req db with
  | error e => left; simp [handler, h1, h2, htb]
  | ok r =>
    have hh : handler env req db = r := by simp [handler, h1, h2, htb]
    unfold tryBlock at htb
    split at htb
    · simp at htb
    · rename_i b hbody
      split at htb
      · left
        have h3 := Except.ok.inj htb
        rw [hh, ← h3]
      · split at htb
        · left
          have h3 := Except.ok.inj htb
          rw [hh, ← h3]
        · split at htb
          · split at htb
            · left
              have h3 := Except.ok.inj htb
              rw [hh, ← h3]
            · simp at htb
          · rename_i db2 hins
            right
            refine ⟨b, ?_⟩
            have h3 := Except.ok.inj htb
            rw [hh, ← h3]
            exact hins

/-- A single handler call preserves the uniqueness-and-normalization
invariant on the stored waitlist rows. -/
theorem inv_preserved (env : Env) (req : RequestModel) (db : DbState)
    (hInv : EntriesInv db) : EntriesInv (handler env req db).2 := by
  rcases handler_state_cases env req db with hcase | ⟨b, hins⟩
  · rw [hcase]; exact hInv
  · obtain ⟨-, -, hdup, -, hshape⟩ := attemptInsert_ok_inv env db _ _ hins
    rw [hshape]
    have hdup2 : ∀ x ∈ db.waitlist_entries,
        x.application_id = (b.applicationId.getD "") →
          ¬(x.email = normEmail (b.email.getD "")) := by
      simpa [isDuplicate, mkEntry] using hdup
    constructor
    · rw [List.pairwise_append]
      refine ⟨hInv.1, List.pairwise_singleton _ _, ?_⟩
      intro a ha e2 he2
      have he3 : e2 = mkEntry env (b.applicationId.getD "") (b.email.getD "")
          (b.sourceUrl.getD "") b.country := by simpa using he2
      subst he3
      intro hcol
      obtain ⟨hcapp, hcem⟩ := hcol
      simp only [mkEntry] at hcapp hcem
      rw [normEmail_idem] at hcem
      have hfix : normEmail a.email = a.email := hInv.2 a ha
      exact hdup2 a ha hcapp (hfix.symm.trans hcem)
    · intro e2 he2
      rcases List.mem_append.mp he2 with h4 | h4
      · exact hInv.2 e2 h4
      · have he3 : e2 = mkEntry env (b.applicationId.getD "") (b.email.getD "")
            (b.sourceUrl.getD "") b.country := by simpa using h4
        subst he3
        simp only [mkEntry]
        exact normEmail_idem _

/-- Every reachable database state satisfies the invariant. -/
theorem reachable_inv (db : DbState) (h : Reachable db) : EntriesInv db := by
  induction h with
  | init apps => exact ⟨List.Pairwise.nil, by simp⟩
  | handlerStep env req db hr ih => exact inv_preserved env req db ih
  | createApp a db hr ih => exact ih
  | deleteApp appId db hr ih =>
    constructor
    · exact ih.1.sublist (List.filter_sublist _)
    · intro e he
      exact ih.2 e (List.mem_of_mem_filter he)

/-- C3: in every reachable database state no two waitlist rows share the
same `(application_id, normalized email)` pair, and a handler call
preserves the uniqueness invariant in any state satisfying it. -/
theorem C3_uniqueness_invariant :
    (∀ db, Reachable db → db.waitlist_entries.Pairwise normPairDistinct) ∧
    (∀ env req db, EntriesInv db → EntriesInv (handler env req db).2) :=
  ⟨fun db h => (reachable_inv db h).1, inv_preserved⟩

/-- Witness for C3: the invariant holds in a concrete initial state, and is
preserved by a concrete successful signup. -/
theorem C3_uniqueness_invariant_witness :
    (DbState.mk [⟨"app-1", "A"⟩] []).waitlist_entries.Pairwise normPairDistinct ∧
    EntriesInv (handler ⟨"uuid-1", "t0", false, none⟩
      ⟨"POST", .parsed ⟨some "app-1", some "a@b.com", some "https://x", none⟩⟩
      ⟨[⟨"app-1", "A"⟩], []⟩).2 :=
  ⟨C3_uniqueness_invariant.1 _ (Reachable.init [⟨"app-1", "A"⟩]),
   C3_uniqueness_invariant.2 ⟨"uuid-1", "t0", false, none⟩
     ⟨"POST", .parsed ⟨some "app-1", some "a@b.com", some "https://x", none⟩⟩
     ⟨[⟨"app-1", "A"⟩], []⟩ ⟨List.Pairwise.nil, by simp⟩⟩

end Marvin
